import Mathlib

/-!
Shallow embedding of the source/handle resolution layer of
src/auspice/server/sources.js: Source variants, Dataset/Narrative
handles, base-name composition, visibility checks, URL resolution and
backend enumeration pipelines, together with theorems settling the
specified properties.
-/

namespace NextstrainSources

/-! ## String helpers modelling the JavaScript string operations used -/

/-- Whether the first character list starts with the second. -/
def charsStartWith : List Char → List Char → Bool
  | _, [] => true
  | [], _ :: _ => false
  | c :: cs, p :: ps => c == p && charsStartWith cs ps

/-- Models JS String.startsWith, by characters (structurally recursive so
that concrete instances evaluate inside proofs). -/
def strStartsWith (s pat : String) : Bool :=
  charsStartWith s.data pat.data

/-- Models JS String.endsWith and anchored-suffix regex tests, by
characters. -/
def strEndsWith (s pat : String) : Bool :=
  charsStartWith s.data.reverse pat.data.reverse

/-- Drop the last n characters of a string. -/
def strDropRight (s : String) (n : Nat) : String :=
  String.mk (s.data.take (s.data.length - n))

/-- Drop the first n characters of a string. -/
def strDrop (s : String) (n : Nat) : String :=
  String.mk (s.data.drop n)

/-- Models the JS regex replace of an anchored suffix with the empty string,
for example name.replace of a trailing ".json": the suffix is removed when
present, otherwise the string is unchanged. -/
def stripSuffix (s suffix : String) : String :=
  if strEndsWith s suffix then strDropRight s suffix.data.length else s

/-- Models the JS regex replace of an anchored suffix with a replacement
string, for example turning a trailing "_meta.json" into "_tree.json". -/
def replaceSuffixWith (s suffix repl : String) : String :=
  if strEndsWith s suffix then strDropRight s suffix.data.length ++ repl else s

/-- Replace the leftmost occurrence of pat in s by repl, on character
lists; models the JS String.replace with a plain (non-regex) pattern,
which replaces only the first occurrence. -/
def replaceFirstChars (s pat repl : List Char) : List Char :=
  match s with
  | [] => if pat.isEmpty then repl else []
  | c :: cs =>
    if charsStartWith (c :: cs) pat then repl ++ (c :: cs).drop pat.length
    else c :: replaceFirstChars cs pat repl

/-- Models JS String.replace with a plain string pattern: replaces the
leftmost occurrence of pat in s (if any) by repl. -/
def replaceFirst (s pat repl : String) : String :=
  String.mk (replaceFirstChars s.data pat.data repl.data)

/-- Models the JS regex replace of one leading underscore with the empty
string. -/
def stripLeadingUnderscore (s : String) : String :=
  if strStartsWith s "_" then strDrop s 1 else s

/-- Split a character list on a separator character, JS String.split
style: the empty list yields one empty field. -/
def splitOnChar (sep : Char) : List Char → List (List Char)
  | [] => [[]]
  | c :: cs =>
    let rest := splitOnChar sep cs
    if c == sep then [] :: rest
    else
      match rest with
      | [] => [[c]]
      | r :: rs => (c :: r) :: rs

/-- Models the JS pipeline split on underscore then join with slash. -/
def underscoresToSlashes (s : String) : String :=
  String.intercalate "/" ((splitOnChar '_' s.data).map String.mk)

/-! ## Dataset and Narrative handles

The Dataset and Narrative classes (and their Community and Private-S3
subclasses) are modelled as handle structures tagged with the variant that
determined the subclass-specific behaviour.  Thrown construction errors
become an Except result. -/

/-- The Dataset subclass a handle was created through.  The generic
variant covers Dataset itself and PrivateS3Dataset, which overrides only
urlFor; the community variant carries the repository name of its
CommunitySource. -/
inductive DatasetVariant where
  | generic
  | community (repoName : String)
deriving DecidableEq, Repr

/-- The Narrative subclass a handle was created through. -/
inductive NarrativeVariant where
  | generic
  | core
  | community (repoName : String)
deriving DecidableEq, Repr

/-- Dataset.baseParts: the generic getter returns the stored path parts
verbatim (a slice copy in JS); CommunityDataset prepends
auspice/repoName. -/
def datasetBaseParts : DatasetVariant → List String → List String
  | .generic, pathParts => pathParts
  | .community repoName, pathParts => ("auspice/" ++ repoName) :: pathParts

/-- Narrative.baseParts: the generic getter (also used by CoreNarrative)
returns the stored path parts verbatim; CommunityNarrative prepends
narratives/repoName. -/
def narrativeBaseParts : NarrativeVariant → List String → List String
  | .community repoName, pathParts => ("narratives/" ++ repoName) :: pathParts
  | _, pathParts => pathParts

/-- A constructed Dataset handle: its variant and the stored path parts. -/
structure DatasetHandle where
  variant : DatasetVariant
  pathParts : List String
deriving DecidableEq, Repr

/-- A constructed Narrative handle: its variant and the stored path parts. -/
structure NarrativeHandle where
  variant : NarrativeVariant
  pathParts : List String
deriving DecidableEq, Repr

/-- Errors thrown by the sources module, by class name. -/
def noDatasetPathError : String := "NoDatasetPathError"

/-- Dataset constructor: stores source and path parts, then throws
NoDatasetPathError when the (subclass-determined) baseParts are empty. -/
def datasetConstructor (v : DatasetVariant) (pathParts : List String) :
    Except String DatasetHandle :=
  if (datasetBaseParts v pathParts).length = 0 then .error noDatasetPathError
  else .ok ⟨v, pathParts⟩

/-- Narrative constructor: stores source and path parts; the source
performs no check on baseParts. -/
def narrativeConstructor (v : NarrativeVariant) (pathParts : List String) :
    Except String NarrativeHandle :=
  .ok ⟨v, pathParts⟩

/-- Dataset.baseNameFor: joins the base parts with underscores; the main
type maps to baseName.json, any other type to baseName_type.json. -/
def baseNameFor (baseParts : List String) (type : String) : String :=
  let baseName := String.intercalate "_" baseParts
  if type == "main" then baseName ++ ".json"
  else baseName ++ "_" ++ type ++ ".json"

/-- Narrative.baseName: the base parts joined with underscores plus .md. -/
def narrativeBaseName (baseParts : List String) : String :=
  String.intercalate "_" baseParts ++ ".md"

/-- Dataset.isRequestValidWithoutDataset: false by default;
CommunityDataset overrides it to true exactly when no path parts were
given. -/
def isRequestValidWithoutDataset (h : DatasetHandle) : Bool :=
  match h.variant with
  | .generic => false
  | .community _ => if h.pathParts.length = 0 then true else false

/-! ## Users and static visibleToUser resolution

In the JS module, an instance call source.visibleToUser(user) runs
this.constructor.visibleToUser(user): the static method found first on
the prototype chain of the concrete class, with this bound to that
concrete class (so this._name resolves to the concrete class name).
Source defines the default returning true; PrivateS3Source overrides it
to throw InvalidSourceImplementation; PrivateGroupSource overrides it to
check the user group list.  The chain walk is modelled explicitly so
that subclasses with or without their own override are both covered. -/

/-- The user object handed in by the auth layer: possibly absent
(null/undefined), and its groups property possibly absent. -/
structure User where
  groups : Option (List String)
deriving DecidableEq, Repr

/-- PrivateGroupSource.visibleToUser body: not-not user, and not-not
user.groups (an empty JS array is truthy), and groups includes the
resolved class name. -/
def privateGroupCheck (name : String) (user : Option User) : Bool :=
  match user with
  | none => false
  | some u =>
    match u.groups with
    | none => false
    | some gs => gs.contains name

/-- The InvalidSourceImplementation message thrown by
PrivateS3Source.visibleToUser. -/
def privateS3VisMsg : String :=
  "visibleToUser() must be implemented explicitly by subclasses (not inherited from PrivateS3Source)"

/-- The bodies a class may supply for static visibleToUser. -/
inductive VisMethod where
  | sourceDefault
  | privateS3Abstract
  | privateGroupCheckGroups
deriving DecidableEq, Repr

/-- Walk a prototype chain (the class itself first, root Source last);
the first class that defines the method wins, exactly as JS property
lookup does. -/
def resolveVis : List (Option VisMethod) → Option VisMethod
  | [] => none
  | some m :: _ => some m
  | none :: rest => resolveVis rest

/-- Run source.visibleToUser(user): resolve the static method along the
concrete class chain and execute its body with this bound to the
concrete class, whose _name is concreteName.  A thrown
InvalidSourceImplementation becomes an error result. -/
def runVisibleToUser (concreteName : String) (chain : List (Option VisMethod))
    (user : Option User) : Except String Bool :=
  match resolveVis chain with
  | some .sourceDefault => .ok true
  | some .privateS3Abstract => .error privateS3VisMsg
  | some .privateGroupCheckGroups => .ok (privateGroupCheck concreteName user)
  | none => .error "TypeError: visibleToUser is not a function"

/-- The prototype chain of PrivateS3Source with respect to the static
visibleToUser property: PrivateS3Source throws, S3Source defines
nothing, Source returns true. -/
def privateS3SourceChain : List (Option VisMethod) :=
  [some .privateS3Abstract, none, some .sourceDefault]

/-- The prototype chain of PrivateGroupSource: its own group check,
above the PrivateS3Source chain. -/
def privateGroupSourceChain : List (Option VisMethod) :=
  some .privateGroupCheckGroups :: privateS3SourceChain

/-- The chain of a concrete variant k classes below a given base, none
of which defines its own static visibleToUser (for example InrbDrcSource
sits one such level below PrivateGroupSource). -/
def descendantChain (k : Nat) (base : List (Option VisMethod)) :
    List (Option VisMethod) :=
  List.replicate k none ++ base

/-! ## URL resolution

urlFor/url either build a direct URL against the baseUrl of the source
via the WHATWG URL constructor, or ask the S3 client for a signed
getObject URL for a bucket and key.  The two outcomes are kept apart
structurally, and the external collaborators (URL, S3.getSignedUrl) are
modelled symbolically at their interface. -/

/-- The two shapes of resolved URL the handles can produce. -/
inductive ResolvedUrl where
  | direct (url : String)
  | signed (bucket : String) (key : String)
deriving DecidableEq, Repr

/-- Models the external WHATWG URL constructor at the granularity the
handles use it: resolve a relative file name against a base URL. -/
def newURL (rel base : String) : String :=
  if strEndsWith base "/" then base ++ rel else base ++ "/" ++ rel

/-- S3Source.baseUrl: the direct (unsigned) bucket URL form. -/
def s3BaseUrl (bucket : String) : String :=
  "https://" ++ bucket ++ ".s3.amazonaws.com"

/-- Dataset.urlFor: new URL(baseNameFor(type), source.baseUrl). -/
def datasetUrlFor (baseUrl : String) (h : DatasetHandle) (type : String) :
    ResolvedUrl :=
  .direct (newURL (baseNameFor (datasetBaseParts h.variant h.pathParts) type) baseUrl)

/-- PrivateS3Dataset.urlFor: a signed getObject URL for the bucket of
the source and the computed base name, replacing the direct form. -/
def privateS3DatasetUrlFor (bucket : String) (h : DatasetHandle) (type : String) :
    ResolvedUrl :=
  .signed bucket (baseNameFor (datasetBaseParts h.variant h.pathParts) type)

/-- Narrative.url: new URL(baseName, source.baseUrl). -/
def narrativeUrl (baseUrl : String) (h : NarrativeHandle) : ResolvedUrl :=
  .direct (newURL (narrativeBaseName (narrativeBaseParts h.variant h.pathParts)) baseUrl)

/-- PrivateS3Narrative.url: a signed getObject URL for the bucket of the
source and the narrative base name. -/
def privateS3NarrativeUrl (bucket : String) (h : NarrativeHandle) : ResolvedUrl :=
  .signed bucket (narrativeBaseName (narrativeBaseParts h.variant h.pathParts))

/-! ## Object-storage enumeration

S3Source._listObjects awaits a single S3.listObjectsV2 call with only
the Bucket parameter and returns its Contents.  The external S3 client
is modelled at its interface: without a continuation token the call
returns at most the first MaxKeys = 1000 objects of the bucket (one
page), and a failed call rejects, which await rethrows. -/

/-- An object entry of a bucket listing, carrying its Key. -/
structure S3Object where
  Key : String
deriving DecidableEq, Repr

/-- The default page bound of the S3 listObjectsV2 operation. -/
def s3MaxKeys : Nat := 1000

/-- Message carried by a rejected listObjectsV2 promise. -/
def s3ListFailureMsg : String := "listObjectsV2 failed"

/-- Models the external S3 client call S3.listObjectsV2 with Bucket only:
either the promise rejects, or it fulfills with the first page (at most
s3MaxKeys objects) of the full bucket contents. -/
def listObjectsV2 (bucket : List S3Object) (callFails : Bool) :
    Except String (List S3Object) :=
  if callFails then .error s3ListFailureMsg
  else .ok (bucket.take s3MaxKeys)

/-- S3Source._listObjects: awaits the single listObjectsV2 call and
returns list.Contents; a rejection is rethrown by await. -/
def s3ListObjects (bucket : List S3Object) (callFails : Bool) :
    Except String (List S3Object) :=
  listObjectsV2 bucket callFails

/-- S3Source.availableDatasets: keys of the listed objects ending in
_tree.json, with that suffix stripped and underscores turned into
slashes.  A failed listing call propagates. -/
def s3AvailableDatasets (bucket : List S3Object) (callFails : Bool) :
    Except String (List String) :=
  match s3ListObjects bucket callFails with
  | .error e => .error e
  | .ok objects =>
    .ok (((objects.map (·.Key)).filter (strEndsWith · "_tree.json")).map
      (fun file => underscoresToSlashes (stripSuffix file "_tree.json")))

/-- S3Source.availableNarratives: keys of the listed objects ending in
.md, with the extension stripped and underscores turned into slashes.
A failed listing call propagates. -/
def s3AvailableNarratives (bucket : List S3Object) (callFails : Bool) :
    Except String (List String) :=
  match s3ListObjects bucket callFails with
  | .error e => .error e
  | .ok objects =>
    .ok (((objects.map (·.Key)).filter (strEndsWith · ".md")).map
      (fun file => underscoresToSlashes (stripSuffix file ".md")))

/-! ## GitHub-backed enumeration

The core and community sources fetch a directory listing from the
GitHub contents API.  The fetch outcome is modelled at its interface: a
rejected promise (network failure, rethrown by await), or a response
with its ok flag and, when consumed, its parsed JSON body of file
entries. -/

/-- One entry of a GitHub contents listing. -/
structure GithubFile where
  type : String
  name : String
deriving DecidableEq, Repr

/-- Outcome of the fetch call against the GitHub contents API. -/
inductive FetchOutcome where
  | rejected (e : String)
  | response (ok : Bool) (files : List GithubFile)
deriving DecidableEq, Repr

/-- CoreSource.availableNarratives: on a non-ok response warn and return
the empty list; otherwise keep regular files named *.md other than
README.md, strip the extension and turn underscores into slashes. -/
def coreAvailableNarratives (fetched : FetchOutcome) : Except String (List String) :=
  match fetched with
  | .rejected e => .error e
  | .response false _ => .ok []
  | .response true files =>
    .ok (((((files.filter (·.type == "file")).filter
        (·.name != "README.md")).filter
        (strEndsWith ·.name ".md")).map (·.name)).map
      (fun name => underscoresToSlashes (stripSuffix name ".md")))

/-- The known sidecar suffixes of community dataset files. -/
def sidecarSuffixes : List String :=
  ["meta", "tree", "root-sequence", "seq", "tip-frequencies"]

/-- A community JSON file name is not a sidecar when it ends in none of
the known underscore-prefixed sidecar suffixes. -/
def notSidecar (filename : String) : Bool :=
  !(sidecarSuffixes.any (fun suffix => strEndsWith filename ("_" ++ suffix ++ ".json")))

/-- The jsonFiles of CommunitySource.availableDatasets: regular files
ending in .json whose name starts with the repo name. -/
def communityJsonFiles (repoName : String) (files : List GithubFile) : List String :=
  (((files.filter (·.type == "file")).filter
      (strEndsWith ·.name ".json")).filter
      (strStartsWith ·.name repoName)).map (·.name)

/-- The v2 candidates: all JSON files that are not a known sidecar, with
the .json extension stripped. -/
def communityV2 (jsonFiles : List String) : List String :=
  (jsonFiles.filter notSidecar).map (fun filename => stripSuffix filename ".json")

/-- The v1 candidates: all *_meta.json files with a corresponding
*_tree.json sibling, with the _meta.json suffix stripped. -/
def communityV1 (jsonFiles : List String) : List String :=
  ((jsonFiles.filter (strEndsWith · "_meta.json")).filter
      (fun filename =>
        jsonFiles.contains (replaceSuffixWith filename "_meta.json" "_tree.json"))).map
    (fun filename => stripSuffix filename "_meta.json")

/-- Models Array.from(new Set(l)): keep the first occurrence of each
element, in insertion order. -/
def addUnique (acc : List String) (x : String) : List String :=
  if x ∈ acc then acc else acc ++ [x]

/-- The deduplicated union underlying new Set of the spread v2 then v1. -/
def setDedup (l : List String) : List String :=
  l.foldl addUnique []

/-- The final per-basename transform of CommunitySource.availableDatasets:
remove the first occurrence of the repo name, drop one leading
underscore, split on underscores and join with slashes. -/
def communityDatasetPathOf (repoName basename : String) : String :=
  underscoresToSlashes (stripLeadingUnderscore (replaceFirst basename repoName ""))

/-- CommunitySource.availableDatasets: on a non-ok response warn and
return the empty list; otherwise union and deduplicate the v2 and v1
candidate basenames and apply the path transform to each. -/
def communityAvailableDatasets (repoName : String) (fetched : FetchOutcome) :
    Except String (List String) :=
  match fetched with
  | .rejected e => .error e
  | .response false _ => .ok []
  | .response true files =>
    let jsonFiles := communityJsonFiles repoName files
    .ok ((setDedup (communityV2 jsonFiles ++ communityV1 jsonFiles)).map
      (communityDatasetPathOf repoName))

/-- CommunitySource.availableNarratives: on a non-ok response warn and
return the empty list; otherwise keep regular *.md files other than
README.md starting with the repo name, remove the repo name, drop one
leading underscore, strip the extension and turn underscores into
slashes. -/
def communityAvailableNarratives (repoName : String) (fetched : FetchOutcome) :
    Except String (List String) :=
  match fetched with
  | .rejected e => .error e
  | .response false _ => .ok []
  | .response true files =>
    .ok ((((((files.filter (·.type == "file")).filter
        (·.name != "README.md")).filter
        (strEndsWith ·.name ".md")).filter
        (strStartsWith ·.name repoName)).map (·.name)).map
      (fun name =>
        underscoresToSlashes
          (stripSuffix (stripLeadingUnderscore (replaceFirst name repoName "")) ".md")))

/-! ## Theorems -/

/-- Claim C2 counterexample: a generic Narrative handle built from an empty
path-segment sequence has empty computed base parts, yet its construction
succeeds instead of failing with the no-dataset-path error. -/
theorem narrativeConstructor_accepts_empty_baseParts :
    narrativeBaseParts .generic [] = [] ∧
    narrativeConstructor .generic [] = .ok ⟨.generic, []⟩ :=
  ⟨rfl, rfl⟩

/-- Claim C2 (amended): for every Dataset variant and path-segment sequence,
construction fails with the no-dataset-path error exactly when the computed
base parts are empty, and succeeds exactly when they are non-empty; Narrative
construction performs no base-parts check and always succeeds. -/
theorem datasetConstructor_noDatasetPath_iff :
    (∀ v ps, (datasetConstructor v ps = .error noDatasetPathError ↔
      datasetBaseParts v ps = [])) ∧
    (∀ v ps, ((∃ h, datasetConstructor v ps = .ok h) ↔
      datasetBaseParts v ps ≠ [])) ∧
    (∀ nv ps, narrativeConstructor nv ps = .ok ⟨nv, ps⟩) := by
  refine ⟨fun v ps => ?_, fun v ps => ?_, fun nv ps => rfl⟩ <;>
    by_cases hbp : datasetBaseParts v ps = [] <;>
      simp [datasetConstructor, List.length_eq_zero, hbp]

/-- Claim C8: on every Dataset handle with non-empty base parts,
baseNameFor of the main type is the base parts joined with underscores
followed by .json, and baseNameFor of any other type appends an
underscore and that type before .json; in particular on
flu, seasonal, h3n2 the main and meta names are flu_seasonal_h3n2.json
and flu_seasonal_h3n2_meta.json. -/
theorem baseNameFor_spec (parts : List String) (t : String)
    (hp : parts ≠ []) (ht : t ≠ "main") :
    baseNameFor parts "main" = String.intercalate "_" parts ++ ".json" ∧
    baseNameFor parts t = String.intercalate "_" parts ++ "_" ++ t ++ ".json" ∧
    baseNameFor ["flu", "seasonal", "h3n2"] "main" = "flu_seasonal_h3n2.json" ∧
    baseNameFor ["flu", "seasonal", "h3n2"] "meta" = "flu_seasonal_h3n2_meta.json" := by
  refine ⟨rfl, ?_, by decide, by decide⟩
  simp [baseNameFor, ht]

/-- Witness for C8 at the concrete flu example with the meta type. -/
theorem baseNameFor_spec_witness :
    (["flu", "seasonal", "h3n2"] : List String) ≠ [] ∧ ("meta" : String) ≠ "main" ∧
    (baseNameFor ["flu", "seasonal", "h3n2"] "main" =
        String.intercalate "_" ["flu", "seasonal", "h3n2"] ++ ".json" ∧
      baseNameFor ["flu", "seasonal", "h3n2"] "meta" =
        String.intercalate "_" ["flu", "seasonal", "h3n2"] ++ "_" ++ "meta" ++ ".json" ∧
      baseNameFor ["flu", "seasonal", "h3n2"] "main" = "flu_seasonal_h3n2.json" ∧
      baseNameFor ["flu", "seasonal", "h3n2"] "meta" = "flu_seasonal_h3n2_meta.json") :=
  ⟨by decide, by decide,
    baseNameFor_spec ["flu", "seasonal", "h3n2"] "meta" (by decide) (by decide)⟩

/-- Claim C9: community Dataset base parts prepend auspice/repoName to
the path segments; for repo ncov and segments global they equal
auspice/ncov followed by global. -/
theorem communityDataset_baseParts_spec :
    (∀ r ps, datasetBaseParts (.community r) ps = ("auspice/" ++ r) :: ps) ∧
    datasetBaseParts (.community "ncov") ["global"] = ["auspice/ncov", "global"] :=
  ⟨fun _ _ => rfl, by decide⟩

/-- Claim C10: isRequestValidWithoutDataset is false on every generic
Dataset handle, and on a community Dataset handle it is true exactly
when the handle holds zero path segments. -/
theorem isRequestValidWithoutDataset_spec :
    (∀ ps, isRequestValidWithoutDataset ⟨.generic, ps⟩ = false) ∧
    (∀ r ps, (isRequestValidWithoutDataset ⟨.community r, ps⟩ = true ↔ ps = [])) := by
  refine ⟨fun ps => rfl, fun r ps => ?_⟩
  cases ps <;> simp [isRequestValidWithoutDataset]

/-- Claim C5: on every private object-storage handle, urlFor and url
return the signed URL for exactly the bucket of the source and the
computed base name, and never a direct URL built from the baseUrl. -/
theorem privateS3_urls_signed_spec (bucket : String) (h : DatasetHandle)
    (t : String) (hn : NarrativeHandle) :
    privateS3DatasetUrlFor bucket h t =
      .signed bucket (baseNameFor (datasetBaseParts h.variant h.pathParts) t) ∧
    (∀ u, privateS3DatasetUrlFor bucket h t ≠ .direct u) ∧
    privateS3NarrativeUrl bucket hn =
      .signed bucket (narrativeBaseName (narrativeBaseParts hn.variant hn.pathParts)) ∧
    (∀ u, privateS3NarrativeUrl bucket hn ≠ .direct u) := by
  refine ⟨rfl, fun u => ?_, rfl, fun u => ?_⟩ <;>
    simp [privateS3DatasetUrlFor, privateS3NarrativeUrl]

/-- Method resolution skips classes that do not define the static
method: the chain of a descendant without overrides resolves exactly as
its base chain does. -/
theorem resolveVis_descendantChain (k : Nat) (base : List (Option VisMethod)) :
    resolveVis (descendantChain k base) = resolveVis base := by
  induction k with
  | zero => rfl
  | succ n ih =>
    simpa [descendantChain, List.replicate_succ, resolveVis] using ih

/-- Claim C3: on every concrete descendant of PrivateGroupSource without
its own override, visibleToUser returns true exactly when the user is
present, has a groups list, and that list contains the source name; it
returns false for an absent user and for a user without groups. -/
theorem privateGroup_visibleToUser_spec (k : Nat) (name : String) (user : Option User) :
    (runVisibleToUser name (descendantChain k privateGroupSourceChain) user = .ok true ↔
      ∃ u gs, user = some u ∧ u.groups = some gs ∧ name ∈ gs) ∧
    runVisibleToUser name (descendantChain k privateGroupSourceChain) none = .ok false ∧
    runVisibleToUser name (descendantChain k privateGroupSourceChain) (some ⟨none⟩) = .ok false := by
  have hres : resolveVis (descendantChain k privateGroupSourceChain) =
      some .privateGroupCheckGroups :=
    resolveVis_descendantChain k privateGroupSourceChain
  refine ⟨?_, ?_, ?_⟩ <;> simp only [runVisibleToUser, hres]
  · cases user with
    | none => simp [privateGroupCheck]
    | some u =>
      cases hgs : u.groups with
      | none => simp [privateGroupCheck, hgs]
      | some gs =>
        simp [privateGroupCheck, hgs, List.elem_iff]
  · rfl
  · rfl

/-- Claim C4: on every concrete descendant of PrivateS3Source none of
whose intermediate classes overrides the static visibleToUser, any
invocation of visibleToUser throws the InvalidSourceImplementation
configuration error and never yields the always-visible default. -/
theorem privateS3_visibleToUser_spec (k : Nat) (name : String) (user : Option User) :
    runVisibleToUser name (descendantChain k privateS3SourceChain) user =
      .error privateS3VisMsg ∧
    runVisibleToUser name (descendantChain k privateS3SourceChain) user ≠ .ok true := by
  have hres : resolveVis (descendantChain k privateS3SourceChain) =
      some .privateS3Abstract :=
    resolveVis_descendantChain k privateS3SourceChain
  refine ⟨?_, ?_⟩ <;> simp [runVisibleToUser, hres]

/-- Claim C6 counterexample: a failed object-storage listing call makes
availableDatasets propagate the error to the caller instead of
returning the empty list. -/
theorem s3AvailableDatasets_propagates_failure :
    s3AvailableDatasets [⟨"x_tree.json"⟩] true = .error s3ListFailureMsg ∧
    s3AvailableDatasets [⟨"x_tree.json"⟩] true ≠ .ok [] := by
  refine ⟨rfl, ?_⟩
  simp [s3AvailableDatasets, s3ListObjects, listObjectsV2]

/-- Claim C6 (amended): GitHub-backed enumerations degrade a non-ok
contents-API response to the empty list, but a rejected fetch call and a
failed object-storage listing call propagate to the caller. -/
theorem enumerationFailure_spec :
    (∀ files, coreAvailableNarratives (.response false files) = .ok []) ∧
    (∀ r files, communityAvailableDatasets r (.response false files) = .ok []) ∧
    (∀ r files, communityAvailableNarratives r (.response false files) = .ok []) ∧
    (∀ e, coreAvailableNarratives (.rejected e) = .error e) ∧
    (∀ r e, communityAvailableDatasets r (.rejected e) = .error e) ∧
    (∀ r e, communityAvailableNarratives r (.rejected e) = .error e) ∧
    (∀ bucket, s3AvailableDatasets bucket true = .error s3ListFailureMsg) ∧
    (∀ bucket, s3AvailableNarratives bucket true = .error s3ListFailureMsg) :=
  ⟨fun _ => rfl, fun _ _ => rfl, fun _ _ => rfl, fun _ => rfl,
    fun _ _ => rfl, fun _ _ => rfl, fun _ => rfl, fun _ => rfl⟩

/-- A bucket whose listing spans two pages: the full first page holds
copies of a_tree.json and the second page holds b_tree.json. -/
def overflowingBucket : List S3Object :=
  List.replicate s3MaxKeys ⟨"a_tree.json"⟩ ++ [⟨"b_tree.json"⟩]

/-- Claim C1: on a bucket of s3MaxKeys plus one keys, the dataset whose
tree file sits beyond the first page of the listing is absent from
availableDatasets, which returns only datasets of the first page. -/
theorem s3AvailableDatasets_truncates_to_first_page :
    (⟨"b_tree.json"⟩ : S3Object) ∈ overflowingBucket ∧
    s3AvailableDatasets overflowingBucket false = .ok (List.replicate s3MaxKeys "a") ∧
    "b" ∉ List.replicate s3MaxKeys "a" := by
  have htake : overflowingBucket.take s3MaxKeys =
      List.replicate s3MaxKeys (⟨"a_tree.json"⟩ : S3Object) := by
    have h := @List.take_left S3Object
      (List.replicate s3MaxKeys ⟨"a_tree.json"⟩) [⟨"b_tree.json"⟩]
    rwa [List.length_replicate] at h
  refine ⟨by simp [overflowingBucket], ?_, by simp [List.mem_replicate]⟩
  simp only [s3AvailableDatasets, s3ListObjects, listObjectsV2, Bool.false_eq_true,
    if_false, htake]
  rw [List.map_replicate, List.filter_replicate]
  simp only [show strEndsWith "a_tree.json" "_tree.json" = true by decide, if_true,
    List.map_replicate,
    show underscoresToSlashes (stripSuffix "a_tree.json" "_tree.json") = "a" by decide]

/-- Membership after one Set insertion: the element just added, or
anything already present. -/
theorem mem_addUnique (acc : List String) (x b : String) :
    b ∈ addUnique acc x ↔ b ∈ acc ∨ b = x := by
  unfold addUnique
  by_cases hx : x ∈ acc
  · simp only [hx, if_true]
    constructor
    · exact Or.inl
    · rintro (h | rfl) <;> assumption
  · simp [hx]

/-- Set insertion keeps the accumulator duplicate-free. -/
theorem nodup_addUnique (acc : List String) (x : String) (h : acc.Nodup) :
    (addUnique acc x).Nodup := by
  unfold addUnique
  by_cases hx : x ∈ acc
  · simpa [hx] using h
  · simp only [hx, if_false]
    exact List.Nodup.append h (List.nodup_singleton x)
      (by simp [List.disjoint_singleton, hx])

/-- Folding Set insertions over a list keeps the accumulator
duplicate-free. -/
theorem nodup_foldl_addUnique (l : List String) (acc : List String) (h : acc.Nodup) :
    (l.foldl addUnique acc).Nodup := by
  induction l generalizing acc with
  | nil => exact h
  | cons x xs ih => exact ih _ (nodup_addUnique _ _ h)

/-- Folding Set insertions retains every element of the accumulator and
inserts every element of the list. -/
theorem mem_foldl_addUnique (l : List String) (acc : List String) (b : String)
    (h : b ∈ acc ∨ b ∈ l) : b ∈ l.foldl addUnique acc := by
  induction l generalizing acc with
  | nil => simpa using h
  | cons x xs ih =>
    apply ih
    rcases h with h | h
    · exact Or.inl ((mem_addUnique acc x b).mpr (Or.inl h))
    · rcases List.mem_cons.mp h with rfl | h
      · exact Or.inl ((mem_addUnique acc b b).mpr (Or.inr rfl))
      · exact Or.inr h

/-- Every member of the input occurs exactly once in the deduplicated
Set image. -/
theorem count_setDedup_of_mem (l : List String) (b : String) (h : b ∈ l) :
    (setDedup l).count b = 1 :=
  List.count_eq_one_of_mem (nodup_foldl_addUnique l [] List.nodup_nil)
    (mem_foldl_addUnique l [] b (Or.inr h))

/-- Claim C7: a community dataset discoverable both as a non-sidecar
JSON file (newer convention) and as a meta file with matching tree
sibling (older convention) occurs exactly once in the deduplicated
union of the two candidate sets, and availableDatasets is exactly that
deduplicated union with the repo-name prefix stripped, a leading
underscore removed, and underscores split into path separators. -/
theorem communityAvailableDatasets_dedups (r : String) (files : List GithubFile)
    (b : String)
    (h2 : b ∈ communityV2 (communityJsonFiles r files))
    (h1 : b ∈ communityV1 (communityJsonFiles r files)) :
    (setDedup (communityV2 (communityJsonFiles r files) ++
        communityV1 (communityJsonFiles r files))).count b = 1 ∧
    communityAvailableDatasets r (.response true files) =
      .ok ((setDedup (communityV2 (communityJsonFiles r files) ++
          communityV1 (communityJsonFiles r files))).map (communityDatasetPathOf r)) :=
  ⟨count_setDedup_of_mem _ _ (List.mem_append.mpr (Or.inl h2)), rfl⟩

/-- The auspice directory listing of a community repo ncov offering the
dataset global under both conventions at once. -/
def ncovListing : List GithubFile :=
  [⟨"file", "ncov_global.json"⟩, ⟨"file", "ncov_global_meta.json"⟩,
    ⟨"file", "ncov_global_tree.json"⟩]

/-- Witness for C7 on the ncov listing carrying both conventions. -/
theorem communityAvailableDatasets_dedups_witness :
    "ncov_global" ∈ communityV2 (communityJsonFiles "ncov" ncovListing) ∧
    "ncov_global" ∈ communityV1 (communityJsonFiles "ncov" ncovListing) ∧
    ((setDedup (communityV2 (communityJsonFiles "ncov" ncovListing) ++
        communityV1 (communityJsonFiles "ncov" ncovListing))).count "ncov_global" = 1 ∧
      communityAvailableDatasets "ncov" (.response true ncovListing) =
        .ok ((setDedup (communityV2 (communityJsonFiles "ncov" ncovListing) ++
            communityV1 (communityJsonFiles "ncov" ncovListing))).map
          (communityDatasetPathOf "ncov"))) :=
  ⟨by decide, by decide,
    communityAvailableDatasets_dedups "ncov" ncovListing "ncov_global"
      (by decide) (by decide)⟩

end NextstrainSources
